import Mathlib

/-!
Shallow embedding of the multi-tenant lifecycle manager ("Governor"/"Team")
and the per-tenant persistent store ("PersistentDB") of the
storj/changesetchihuahua repository, together with proofs settling the
frozen claims about it.

Conventions of the embedding:
* Go strings are Lean `String`s; where character-level processing happens
  (trimming, line splitting) we work on `List Char` via `String.data`.
* Go maps are association lists `List (key × value)` with unique keys,
  with explicit lookup / overwrite-insert / erase operations.
* Time values (`time.Time`) are integers (nanoseconds since epoch); the
  `.UTC()` conversion is the identity in this model.
* Fallible Go functions return `Except e α` or pair their result with an
  `Option e`; Go methods that mutate their receiver take and return the
  state explicitly.
-/

namespace Chihuahua

/-! ## Association-list operations (the model of Go maps) -/

/-- Lookup in an association list (model of Go map read `m[k]`). -/
def alookup {α : Type} : List (String × α) → String → Option α
  | [], _ => none
  | (k, v) :: rest, key => if k = key then some v else alookup rest key

/-- Overwrite-insert into an association list (model of Go map write
`m[k] = v`): replaces the value in place when the key exists, appends
otherwise. -/
def ainsert {α : Type} : List (String × α) → String → α → List (String × α)
  | [], key, v => [(key, v)]
  | (k, w) :: rest, key, v =>
      if k = key then (k, v) :: rest else (k, w) :: ainsert rest key v

/-- Erase a key from an association list (model of Go `delete(m, k)`). -/
def aerase {α : Type} : List (String × α) → String → List (String × α)
  | [], _ => []
  | (k, w) :: rest, key =>
      if k = key then rest else (k, w) :: aerase rest key

/-! ## Character-level helpers for the membership-log file format -/

/-- Go `unicode.IsSpace`: the characters Go treats as white space
(`strings.TrimSpace` trims these from both ends). -/
def goIsSpace (c : Char) : Bool :=
  c = ' ' ∨ c = '\t' ∨ c = '\n' ∨ c = (Char.ofNat 11) ∨ c = (Char.ofNat 12) ∨
  c = (Char.ofNat 13) ∨ c = (Char.ofNat 133) ∨ c = (Char.ofNat 160) ∨
  c = (Char.ofNat 0x1680) ∨ (0x2000 ≤ c.toNat ∧ c.toNat ≤ 0x200a) ∨
  c = (Char.ofNat 0x2028) ∨ c = (Char.ofNat 0x2029) ∨ c = (Char.ofNat 0x202f) ∨
  c = (Char.ofNat 0x205f) ∨ c = (Char.ofNat 0x3000)

/-- Go `strings.TrimSpace` on a list of characters. -/
def goTrimSpace (cs : List Char) : List Char :=
  ((cs.dropWhile goIsSpace).reverse.dropWhile goIsSpace).reverse

/-- Split a character stream into lines at each newline character, the way
`bufio.Scanner` with `ScanLines` tokenizes the membership-log file.  (The
scanner emits no token for the empty tail after a terminal newline; our
extra empty final segment is skipped by the reader's blank-line rule, so
the modelled reader computes the same result.) -/
def splitLinesAux : List Char → List Char → List (List Char)
  | [], acc => [acc.reverse]
  | c :: rest, acc =>
      if c = '\n' then acc.reverse :: splitLinesAux rest []
      else splitLinesAux rest (c :: acc)

/-- All lines of a membership-log file. -/
def splitLines (cs : List Char) : List (List Char) :=
  splitLinesAux cs []

/-- Go `strings.SplitN(s, " ", 2)` when it finds a separator: split a line
at its first space, returning the two parts; `none` when the line has no
space (in Go, `SplitN` then returns a one-element slice). -/
def splitFirstSpace : List Char → Option (List Char × List Char)
  | [] => none
  | c :: rest =>
      if c = ' ' then some ([], rest)
      else
        match splitFirstSpace rest with
        | some (a, b) => some (c :: a, b)
        | none => none

/-! ## The Governor (Registry) and Team (TenantRuntime) model

From `Governor` / `Team` in the main package: the in-memory team map, the
append-only membership log (`teamFile`), registration (`NewTeam`), startup
re-registration (`StartTeam`, `NewGovernor`), the membership-log reader
(`readTeamFile`), and teardown (`Team.Close`,
`Governor.VerifyAndHandleChatEvent`). -/

/-- What has become of a Team's `Run` goroutine.  `running` while the
goroutine is live; `stoppedWithError` after `Run` has set `t.runError`
and returned. -/
inductive TeamStatus : Type
  | running : TeamStatus
  | stoppedWithError (msg : String) : TeamStatus
deriving DecidableEq, Repr

/-- The `Team` struct.  In the source, the `canceler` field
(`context.CancelFunc`) is declared but never assigned to on any path, so
it holds its zero value (a nil function); we model it as an
`Option Unit` that is `none` at construction and is never set. -/
structure MTeam : Type where
  id : String
  setupData : String
  canceler : Option Unit
  status : TeamStatus
  runError : Option String
deriving DecidableEq, Repr

/-- The `Team` value built by `NewTeam` / `StartTeam`: only `id`,
`setupData` and `logger` are filled in; every other field keeps its Go
zero value. -/
def mkTeam (teamID setupData : String) : MTeam :=
  { id := teamID, setupData := setupData, canceler := none,
    status := TeamStatus.running, runError := none }

/-- The `Governor` struct: the team map and the membership-log file
content (the file is only ever appended to through
`appendTeamDefinition`). -/
structure Governor : Type where
  teams : List (String × MTeam)
  teamFile : List Char
deriving DecidableEq, Repr

/-- A Governor with no teams and an empty (not-yet-existing) membership
log, as produced by `NewGovernor` when the team file does not exist. -/
def emptyGovernor : Governor :=
  { teams := [], teamFile := [] }

/-- The errors `Governor.NewTeam` can return, in source order of its
checks. -/
inductive GovError : Type
  | duplicateTeam : GovError
  | invalidTeamID : GovError
  | invalidSetupData : GovError
deriving DecidableEq, Repr

/-- `Governor.appendTeamDefinition`: appends
`teamID ++ " " ++ setupData ++ "\n"` to the membership-log file. -/
def appendTeamDefinition (file : List Char) (teamID setupData : String) : List Char :=
  file ++ teamID.data ++ ' ' :: setupData.data ++ ['\n']

/-- `Governor.NewTeam`: rejects a duplicate id, an id containing a space
or newline (`strings.ContainsAny(teamID, " \n")`), and setup data
containing a newline; otherwise appends the team definition to the
membership log, inserts the new Team into the map, and starts its `Run`
goroutine.  Returns the possibly-updated Governor plus the error, so the
frame of each failure path is explicit. -/
def NewTeam (g : Governor) (teamID setupData : String) :
    Governor × Option GovError :=
  if (alookup g.teams teamID).isSome then
    (g, some GovError.duplicateTeam)
  else if teamID.data.any (fun c => c = ' ' ∨ c = '\n') then
    (g, some GovError.invalidTeamID)
  else if setupData.data.contains '\n' then
    (g, some GovError.invalidSetupData)
  else
    ({ teams := ainsert g.teams teamID (mkTeam teamID setupData),
       teamFile := appendTeamDefinition g.teamFile teamID setupData },
     none)

/-- `Governor.StartTeam`: re-registers an already-persisted team at load
time — same map insertion and goroutine start as `NewTeam`, but no
validation and no membership-log append. -/
def StartTeam (g : Governor) (teamID setupData : String) :
    Governor × Option GovError :=
  if (alookup g.teams teamID).isSome then
    (g, some GovError.duplicateTeam)
  else
    ({ teams := ainsert g.teams teamID (mkTeam teamID setupData),
       teamFile := g.teamFile },
     none)

/-- One trimmed line of the membership log, as `readTeamFile` processes
it: skipped when blank or a `#` comment, fatal when it has no space
separator, otherwise split into id and setup data at the first space and
stored into the team-data map (later lines overwrite earlier ones with
the same id, as Go map assignment does). -/
def readTeamLines : List (List Char) → List (String × String) →
    Except Unit (List (String × String))
  | [], acc => Except.ok acc
  | l :: rest, acc =>
      let t := goTrimSpace l
      if t = [] ∨ t.head? = some '#' then
        readTeamLines rest acc
      else
        match splitFirstSpace t with
        | none => Except.error ()
        | some (a, b) =>
            readTeamLines rest (ainsert acc (String.mk a) (String.mk b))

/-- `readTeamFile`: parse the whole membership-log file into the
team-data map, or fail on the first malformed line. -/
def readTeamFile (file : List Char) : Except Unit (List (String × String)) :=
  readTeamLines (splitLines file) []

/-- `NewGovernor` restricted to what the claims need: reload the Registry
from the membership log alone.  Reads the team file (an absent file gives
the empty map) and calls `StartTeam` for each entry; an individual team
start failure is logged and skipped, never fatal. -/
def loadGovernor (file : List Char) : Except Unit Governor :=
  match readTeamFile file with
  | Except.error e => Except.error e
  | Except.ok teamData =>
      Except.ok (teamData.foldl
        (fun g p => (StartTeam g p.1 p.2).1)
        { teams := [], teamFile := file })

/-- Does a membership-log line belong to tenant `id`?  True when the line
is exactly `id` or begins with `id` followed by a space. -/
def lineFor (id : String) (l : List Char) : Bool :=
  l = id.data ∨ l.take (id.data.length + 1) = id.data ++ [' ']

/-- How many lines of the membership-log file belong to tenant `id`. -/
def countLinesFor (file : List Char) (id : String) : Nat :=
  (splitLines file).countP (fun l => lineFor id l)

/-! ## Registry lifecycle events

The asynchronous happenings that change the team map or a Team's runtime
state, as a step relation on the `Governor` state. -/

/-- The lifecycle events acting on a Governor:
* `register` — a `NewTeam` call;
* `runFail` — a Team's `Run` goroutine hits a fatal error (for example
  `slack.NewSlackInterface` fails), records it in `t.runError` and
  returns; `Run` touches no Governor state;
* `chatUninstall` — `VerifyAndHandleChatEvent` resolves the team and its
  `ChatEvent` handling returns `slack.ErrStopTeam`: the Governor deletes
  the team from the map and closes its app. -/
inductive GEvent : Type
  | register (id setup : String) : GEvent
  | runFail (id msg : String) : GEvent
  | chatUninstall (id : String) : GEvent
deriving DecidableEq, Repr

/-- One lifecycle step of the Governor. -/
def stepEvent (g : Governor) : GEvent → Governor
  | GEvent.register id setup => (NewTeam g id setup).1
  | GEvent.runFail id msg =>
      match alookup g.teams id with
      | none => g
      | some t =>
          if t.status = TeamStatus.running then
            let t2 : MTeam :=
              { t with status := TeamStatus.stoppedWithError msg,
                       runError := some msg }
            { g with teams := ainsert g.teams id t2 }
          else g
  | GEvent.chatUninstall id =>
      match alookup g.teams id with
      | none => g
      | some _ => { g with teams := aerase g.teams id }

/-- Run a sequence of lifecycle events from the empty Governor. -/
def runEvents (evs : List GEvent) : Governor :=
  evs.foldl stepEvent emptyGovernor

/-- What `Team.Close` does when invoked: its first statement calls
`t.canceler()`; since `canceler` is never assigned anywhere in the
package it is a nil `context.CancelFunc`, and calling it panics.  Only
with a non-nil canceler would `Close` go on to cancel the scope and close
the team app. -/
inductive ClosePanic : Type
  | nilFunctionCall : ClosePanic
deriving DecidableEq, Repr

/-- `Team.Close`, with panics made explicit as `Except.error`. -/
def TeamClose (t : MTeam) : Except ClosePanic MTeam :=
  match t.canceler with
  | none => Except.error ClosePanic.nilFunctionCall
  | some _ => Except.ok { t with status := TeamStatus.running }

/-! ## The PersistentDB (Store) model

From `app/persistentdb.go` and the dbx schema `app/dbx/persistent.dbx`:
the `gerrit_users`, `inline_comments`, `team_configs` and
`patchset_announcements` tables, the read-through chat-ID cache, and the
operations the claims are about. -/

/-- A `gerrit_users` row (key `gerrit_username`): per the dbx schema,
`chat_id` is not an updatable field and `last_report` is nullable. -/
structure GerritUserRow : Type where
  chatId : String
  lastReport : Option Int
deriving DecidableEq, Repr

/-- A `patchset_announcements` row (minus the surrogate serial key,
which serves no purpose beyond appeasing dbx). -/
structure AnnRow : Type where
  projectName : String
  changeNum : Int
  patchsetNum : Int
  messageHandle : String
  ts : Int
deriving DecidableEq, Repr

/-- The four tables of one tenant's persistent database.
`inlineComments` maps `comment_id` to `updated_at`;
`teamConfigs` maps `config_key` to `config_value`. -/
structure DBState : Type where
  gerritUsers : List (String × GerritUserRow)
  inlineComments : List (String × Int)
  teamConfigs : List (String × String)
  announcements : List AnnRow
deriving DecidableEq, Repr

/-- A `PersistentDB`: the database plus the in-memory gerrit-username →
chat-ID cache. -/
structure PDB : Type where
  db : DBState
  cache : List (String × String)
deriving DecidableEq, Repr

/-- A freshly opened, migrated, empty PersistentDB. -/
def emptyPDB : PDB :=
  { db := { gerritUsers := [], inlineComments := [], teamConfigs := [],
            announcements := [] },
    cache := [] }

/-- Database-level errors surfaced by the modelled operations. -/
inductive DBErr : Type
  | noRows : DBErr
  | uniqueViolation : DBErr
  | invalidBoolValue : DBErr
  | intParseError : DBErr
deriving DecidableEq, Repr

/-- dbx `Get_GerritUser_By_GerritUsername`: a keyed read that fails with
`sql.ErrNoRows` when the username is unknown; this is
`PersistentDB.LookupGerritUser`. -/
def LookupGerritUser (p : PDB) (gerritUsername : String) :
    Except DBErr GerritUserRow :=
  match alookup p.db.gerritUsers gerritUsername with
  | none => Except.error DBErr.noRows
  | some row => Except.ok row

/-- dbx `CreateNoReturn_GerritUser`: a plain `INSERT` (the dbx `create`
operation, not a `replace`), so it fails with a unique-constraint
violation when the key already has a row; `last_report` starts null
(`GerritUser_Create_Fields` left empty). -/
def CreateNoReturn_GerritUser (d : DBState) (gerritUsername chatID : String) :
    Except DBErr DBState :=
  match alookup d.gerritUsers gerritUsername with
  | some _ => Except.error DBErr.uniqueViolation
  | none =>
      let row : GerritUserRow := { chatId := chatID, lastReport := none }
      Except.ok { d with gerritUsers := ainsert d.gerritUsers gerritUsername row }

/-- `PersistentDB.AssociateChatIDWithGerritUser`: insert the row; on
failure return the error with nothing else changed; on success add the
association to the cache. -/
def AssociateChatIDWithGerritUser (p : PDB) (gerritUsername chatID : String) :
    PDB × Option DBErr :=
  match CreateNoReturn_GerritUser p.db gerritUsername chatID with
  | Except.error e => (p, some e)
  | Except.ok d =>
      ({ db := d, cache := ainsert p.cache gerritUsername chatID }, none)

/-- `PersistentDB.LookupChatIDForGerritUser`: check the cache first; on a
miss read the database (propagating its error with an empty chat ID) and
populate the cache on success. -/
def LookupChatIDForGerritUser (p : PDB) (gerritUsername : String) :
    PDB × Except DBErr String :=
  match alookup p.cache gerritUsername with
  | some chatID => (p, Except.ok chatID)
  | none =>
      match LookupGerritUser p gerritUsername with
      | Except.error e => (p, Except.error e)
      | Except.ok row =>
          ({ p with cache := ainsert p.cache gerritUsername row.chatId },
           Except.ok row.chatId)

/-- `PersistentDB.IdentifyNewInlineComments` on the `inline_comments`
table: a no-op on an empty input map; otherwise one `SELECT` finds which
candidate comment ids already have rows, those are deleted from the
caller's map, and the remainder (if any) is bulk-inserted with
`ON CONFLICT (comment_id) DO UPDATE SET updated_at = EXCLUDED.updated_at`
(modelled by overwrite-insert).  Returns the caller's map as the Go
caller observes it after the call, plus the updated table. -/
def IdentifyNewInlineComments (table : List (String × Int))
    (commentsByID : List (String × Int)) :
    List (String × Int) × List (String × Int) :=
  if commentsByID = [] then (commentsByID, table)
  else
    let remaining := commentsByID.filter
      (fun p => (alookup table p.1).isNone)
    (remaining, remaining.foldl (fun t p => ainsert t p.1 p.2) table)

/-- `PersistentDB.Prune`: delete `inline_comments` rows with
`updated_at < now - 2*inlineCommentMaxAge` (dbx
`Delete_InlineComment_By_UpdatedAt_Less`, a strict comparison) and
`patchset_announcements` rows with `ts < now` minus `buildLifetimeDays`
days (dbx `Delete_PatchsetAnnouncement_By_Ts_Less`, also strict).  `w` is
the `inlineCommentMaxAge` retention window and `dayNanos d` the length of
`d` days, in the same integer time units as the rows. -/
def dayNanos (d : Int) : Int := d * 86400000000000

/-- The `Prune` operation itself. -/
def Prune (d : DBState) (now w days : Int) : DBState :=
  { d with
    inlineComments :=
      d.inlineComments.filter (fun p => ¬ p.2 < now - 2 * w),
    announcements :=
      d.announcements.filter (fun a => ¬ a.ts < now - dayNanos days) }

/-! ## Go `strconv` / `strings` library models used by the config accessors -/

/-- `strings.ToLower` on one character, for the ASCII range.  (Go lowers
the full Unicode range, but no non-ASCII character lowercases to any
character of the boolean token sets, so token-set membership after
lowering agrees with Go's.) -/
def goToLowerChar (c : Char) : Char :=
  if 'A' ≤ c ∧ c ≤ 'Z' then Char.ofNat (c.toNat + 32) else c

/-- `strings.ToLower` on a string. -/
def goToLower (s : String) : String :=
  String.mk (s.data.map goToLowerChar)

/-- `strconv`'s internal `lower`: set the ASCII case bit.  Left as the
identity outside ASCII: any non-ASCII character is rejected as a digit by
both Go (its UTF-8 bytes are all ≥ 0x80) and this model. -/
def strconvLower (c : Char) : Char :=
  if c.toNat < 128 then Char.ofNat (c.toNat ||| 32) else c

/-- The numeric value a character denotes as a digit (`0-9`, then
letters from 10 up, case-insensitively), or `none`. -/
def digitVal (c : Char) : Option Nat :=
  if '0' ≤ c ∧ c ≤ '9' then some (c.toNat - 48)
  else
    let l := strconvLower c
    if 'a' ≤ l ∧ l ≤ 'z' then some (l.toNat - 97 + 10) else none

/-- The digit loop of `strconv.parseUint` with `base0 = true`: accumulate
the value, skipping underscores (recorded in the returned flag), failing
on any character that is not a valid digit for the base. -/
def parseUintDigits (base : Nat) : List Char → Nat → Bool → Option (Nat × Bool)
  | [], n, saw => some (n, saw)
  | c :: rest, n, saw =>
      if c = '_' then parseUintDigits base rest n true
      else
        match digitVal c with
        | none => none
        | some d =>
            if base ≤ d then none
            else parseUintDigits base rest (n * base + d) saw

/-- `strconv`'s `underscoreOK` digit-separator check, inner loop.  `saw`
is the class of the previous character: `'^'` start, `'0'` digit or base
prefix, `'_'` underscore, `'!'` other. -/
def underscoreOKLoop (hex : Bool) : List Char → Char → Bool
  | [], saw => saw ≠ '_'
  | c :: rest, saw =>
      if ('0' ≤ c ∧ c ≤ '9') ∨
          (hex ∧ 'a' ≤ strconvLower c ∧ strconvLower c ≤ 'f') then
        underscoreOKLoop hex rest '0'
      else if c = '_' then
        if saw ≠ '0' then false else underscoreOKLoop hex rest '_'
      else if saw = '_' then false
      else underscoreOKLoop hex rest '!'

/-- `strconv`'s `underscoreOK`: underscores may appear only between
digits, or between a base prefix and a digit. -/
def underscoreOK (s : List Char) : Bool :=
  let s1 :=
    match s with
    | c :: rest => if c = '-' ∨ c = '+' then rest else s
    | [] => s
  match s1 with
  | '0' :: b :: rest =>
      let lb := strconvLower b
      if lb = 'b' ∨ lb = 'o' ∨ lb = 'x' then
        underscoreOKLoop (lb = 'x') rest '0'
      else underscoreOKLoop false s1 '^'
  | _ => underscoreOKLoop false s1 '^'

/-- `strconv.parseUint(s, 0, ...)` up to range checking: auto-detect the
base from a `0b`/`0o`/`0x`/leading-`0` prefix (base 10 otherwise), run
the digit loop, and validate underscore placement.  Returns the exact
accumulated value; the caller applies the bit-size range check (a Go
range error and a failed range check both end in a non-nil error, which
is all `GetConfigInt` looks at). -/
def parseUint0 (s0 : List Char) : Option Nat :=
  match s0 with
  | [] => none
  | c :: _ =>
      let p : Nat × List Char :=
        if c = '0' then
          match s0 with
          | _ :: b :: rest =>
              let lb := strconvLower b
              if rest ≠ [] ∧ lb = 'b' then (2, rest)
              else if rest ≠ [] ∧ lb = 'o' then (8, rest)
              else if rest ≠ [] ∧ lb = 'x' then (16, rest)
              else (8, b :: rest)
          | _ => (8, [])
        else (10, s0)
      match parseUintDigits p.1 p.2 0 false with
      | none => none
      | some (n, saw) =>
          if saw ∧ ¬ underscoreOK s0 then none else some n

/-- `strconv.ParseInt(s, 0, 32)`, with every failure (syntax or range)
collapsed to `none`, which is all its caller `GetConfigInt`
distinguishes: optional sign, auto-detected base, and the int32 range
check (`n < 2^31` for a positive result, `n ≤ 2^31` negated). -/
def goParseInt0_32 (s : String) : Option Int :=
  match s.data with
  | [] => none
  | c :: rest =>
      let q : Bool × List Char :=
        if c = '+' then (false, rest)
        else if c = '-' then (true, rest)
        else (false, c :: rest)
      match parseUint0 q.2 with
      | none => none
      | some n =>
          if ¬ q.1 ∧ 2 ^ 31 ≤ n then none
          else if q.1 ∧ 2 ^ 31 < n then none
          else some (if q.1 then -(n : Int) else (n : Int))

/-- One base-32 digit of `strconv.FormatInt`, lowercase. -/
def digitChar32 (n : Nat) : Char :=
  if n < 10 then Char.ofNat (48 + n) else Char.ofNat (87 + n)

/-- The digit-emission loop of `strconv.FormatInt` in base 32, with a
fuel argument for structural termination (the callers pass `n` itself as
fuel, which always suffices since a value has at most `n` digits). -/
def natToBase32Go : Nat → Nat → List Char → List Char
  | 0, _, acc => acc
  | fuel + 1, n, acc =>
      if n = 0 then acc
      else natToBase32Go fuel (n / 32) (digitChar32 (n % 32) :: acc)

/-- `strconv.FormatInt(v, 32)`: base-32 text with lowercase digits and a
leading minus sign for negative values. -/
def goFormatBase32 (v : Int) : String :=
  if v < 0 then String.mk ('-' :: natToBase32Go v.natAbs v.natAbs [])
  else if v = 0 then String.mk ['0']
  else String.mk (natToBase32Go v.natAbs v.natAbs [])

/-! ## Config accessors -/

/-- `PersistentDB.GetConfig`: a keyed read of `team_configs`; a missing
key (`sql.ErrNoRows`) is converted to a nil error and yields the default.
(The pure store cannot fail in other ways, so the propagated-read-error
path carries no error here.) -/
def GetConfig (d : DBState) (key defaultValue : String) :
    String × Option DBErr :=
  match alookup d.teamConfigs key with
  | none => (defaultValue, none)
  | some v => (v, none)

/-- The accepted true tokens of `GetConfigBool`. -/
def trueTokens : List String := ["yes", "y", "1", "on", "true", "t"]

/-- The accepted false tokens of `GetConfigBool`. -/
def falseTokens : List String := ["no", "n", "0", "off", "false", "f"]

/-- `PersistentDB.GetConfigBool`: read the key with an empty-string
default; on error or empty value return the default with that error;
otherwise lowercase and match against the two token sets; any other
value is an invalid-boolean error with the default. -/
def GetConfigBool (d : DBState) (key : String) (defaultValue : Bool) :
    Bool × Option DBErr :=
  let r := GetConfig d key ""
  if r.2.isSome ∨ r.1 = "" then (defaultValue, r.2)
  else
    let v := goToLower r.1
    if v ∈ trueTokens then (true, none)
    else if v ∈ falseTokens then (false, none)
    else (defaultValue, some DBErr.invalidBoolValue)

/-- `PersistentDB.GetConfigInt`: read the key with an empty-string
default; on error or empty value return the default with that error;
otherwise parse with `strconv.ParseInt(val, 0, 32)` — auto-detected
base — returning the default plus the parse error on failure. -/
def GetConfigInt (d : DBState) (key : String) (defaultValue : Int) :
    Int × Option DBErr :=
  let r := GetConfig d key ""
  if r.2.isSome ∨ r.1 = "" then (defaultValue, r.2)
  else
    match goParseInt0_32 r.1 with
    | none => (defaultValue, some DBErr.intParseError)
    | some n => (n, none)

/-- `PersistentDB.SetConfig`: upsert into `team_configs`
(`INSERT ... ON CONFLICT (config_key) DO UPDATE SET config_value`). -/
def SetConfig (d : DBState) (key value : String) : DBState :=
  { d with teamConfigs := ainsert d.teamConfigs key value }

/-- `PersistentDB.SetConfigInt`: stores the value encoded by
`strconv.FormatInt(int64(value), 32)` — base 32, despite the function's
own comment claiming decimal. -/
def SetConfigInt (d : DBState) (key : String) (value : Int) : DBState :=
  SetConfig d key (goFormatBase32 value)

/-! ## Helper lemmas about association lists -/

/-! ## Helper lemmas about association lists -/

theorem alookup_none_of_not_mem_keys {α : Type} (m : List (String × α)) (k : String)
    (h : k ∉ m.map Prod.fst) : alookup m k = none := by
  induction m with
  | nil => rfl
  | cons p rest ih =>
      obtain ⟨k0, w⟩ := p
      simp only [List.map_cons, List.mem_cons] at h
      push_neg at h
      simp only [alookup, if_neg (fun hh : k0 = k => h.1 hh.symm)]
      exact ih h.2

theorem mem_keys_of_alookup_some {α : Type} (m : List (String × α)) (k : String) {v : α}
    (h : alookup m k = some v) : k ∈ m.map Prod.fst := by
  by_contra hmem
  rw [alookup_none_of_not_mem_keys m k hmem] at h
  exact Option.noConfusion h

theorem alookup_ainsert_self {α : Type} (m : List (String × α)) (k : String) (v : α) :
    alookup (ainsert m k v) k = some v := by
  induction m with
  | nil => simp [ainsert, alookup]
  | cons p rest ih =>
      obtain ⟨k0, w⟩ := p
      simp only [ainsert]
      by_cases h0 : k0 = k
      · rw [if_pos h0]
        simp only [alookup, if_pos h0]
      · rw [if_neg h0]
        simp only [alookup, if_neg h0]
        exact ih

theorem alookup_ainsert_ne {α : Type} (m : List (String × α)) (k k2 : String) (v : α)
    (h : k2 ≠ k) : alookup (ainsert m k v) k2 = alookup m k2 := by
  induction m with
  | nil =>
      have hne : ¬ k = k2 := fun hh => h hh.symm
      simp [ainsert, alookup, hne]
  | cons p rest ih =>
      obtain ⟨k0, w⟩ := p
      simp only [ainsert]
      by_cases h0 : k0 = k
      · rw [if_pos h0]
        have hne : ¬ k0 = k2 := fun hh => h (h0 ▸ hh).symm
        simp only [alookup, if_neg hne]
      · rw [if_neg h0]
        simp only [alookup]
        by_cases h2 : k0 = k2
        · rw [if_pos h2, if_pos h2]
        · rw [if_neg h2, if_neg h2]
          exact ih

theorem alookup_isSome_ainsert {α : Type} (m : List (String × α)) (k k2 : String) (v : α)
    (h : (alookup m k2).isSome = true) :
    (alookup (ainsert m k v) k2).isSome = true := by
  by_cases hk : k2 = k
  · subst hk
    rw [alookup_ainsert_self]
    rfl
  · rw [alookup_ainsert_ne m k k2 v hk]
    exact h

theorem alookup_aerase_ne {α : Type} (m : List (String × α)) (k k2 : String)
    (h : k2 ≠ k) : alookup (aerase m k) k2 = alookup m k2 := by
  induction m with
  | nil => rfl
  | cons p rest ih =>
      obtain ⟨k0, w⟩ := p
      simp only [aerase]
      by_cases h0 : k0 = k
      · rw [if_pos h0]
        have hne : ¬ k0 = k2 := fun hh => h (h0 ▸ hh).symm
        simp only [alookup, if_neg hne]
      · rw [if_neg h0]
        simp only [alookup]
        by_cases h2 : k0 = k2
        · rw [if_pos h2, if_pos h2]
        · rw [if_neg h2, if_neg h2]
          exact ih

theorem alookup_aerase_self {α : Type} (m : List (String × α)) (k : String)
    (h : (m.map Prod.fst).Nodup) : alookup (aerase m k) k = none := by
  induction m with
  | nil => rfl
  | cons p rest ih =>
      obtain ⟨k0, w⟩ := p
      simp only [List.map_cons, List.nodup_cons] at h
      simp only [aerase]
      by_cases h0 : k0 = k
      · rw [if_pos h0]
        exact alookup_none_of_not_mem_keys rest k (h0 ▸ h.1)
      · rw [if_neg h0]
        simp only [alookup, if_neg h0]
        exact ih h.2

theorem keys_ainsert_sub {α : Type} (m : List (String × α)) (k : String) (v : α) :
    ∀ k2, k2 ∈ (ainsert m k v).map Prod.fst → k2 ∈ m.map Prod.fst ∨ k2 = k := by
  induction m with
  | nil =>
      intro k2 h
      simp only [ainsert, List.map_cons, List.map_nil, List.mem_singleton] at h
      exact Or.inr h
  | cons p rest ih =>
      obtain ⟨k0, w⟩ := p
      intro k2 h
      simp only [ainsert] at h
      by_cases h0 : k0 = k
      · rw [if_pos h0] at h
        simp only [List.map_cons, List.mem_cons] at h
        rcases h with h | h
        · exact Or.inl (List.mem_cons.mpr (Or.inl h))
        · exact Or.inl (List.mem_cons.mpr (Or.inr h))
      · rw [if_neg h0] at h
        simp only [List.map_cons, List.mem_cons] at h
        rcases h with h | h
        · exact Or.inl (List.mem_cons.mpr (Or.inl h))
        · rcases ih k2 h with h2 | h2
          · exact Or.inl (List.mem_cons.mpr (Or.inr h2))
          · exact Or.inr h2

theorem nodup_keys_ainsert {α : Type} (m : List (String × α)) (k : String) (v : α)
    (h : (m.map Prod.fst).Nodup) : ((ainsert m k v).map Prod.fst).Nodup := by
  induction m with
  | nil => simp [ainsert]
  | cons p rest ih =>
      obtain ⟨k0, w⟩ := p
      simp only [List.map_cons, List.nodup_cons] at h
      simp only [ainsert]
      by_cases h0 : k0 = k
      · rw [if_pos h0]
        simp only [List.map_cons, List.nodup_cons]
        exact ⟨h.1, h.2⟩
      · rw [if_neg h0]
        simp only [List.map_cons, List.nodup_cons]
        refine ⟨fun hmem => ?_, ih h.2⟩
        rcases keys_ainsert_sub rest k v k0 hmem with h2 | h2
        · exact h.1 h2
        · exact h0 h2

theorem alookup_foldl_ainsert_not_mem {α : Type} (l : List (String × α)) (k : String)
    (h : k ∉ l.map Prod.fst) : ∀ t0 : List (String × α),
    alookup (l.foldl (fun t p => ainsert t p.1 p.2) t0) k = alookup t0 k := by
  induction l with
  | nil => intro t0; rfl
  | cons p rest ih =>
      intro t0
      simp only [List.map_cons, List.mem_cons] at h
      push_neg at h
      simp only [List.foldl_cons]
      rw [ih h.2 (ainsert t0 p.1 p.2), alookup_ainsert_ne t0 p.1 k p.2 h.1]

theorem alookup_foldl_ainsert_mem {α : Type} (l : List (String × α)) (k : String) (v : α)
    (hnd : (l.map Prod.fst).Nodup) (hmem : (k, v) ∈ l) : ∀ t0 : List (String × α),
    alookup (l.foldl (fun t p => ainsert t p.1 p.2) t0) k = some v := by
  induction l with
  | nil => exact absurd hmem (List.not_mem_nil _)
  | cons p rest ih =>
      intro t0
      simp only [List.map_cons, List.nodup_cons] at hnd
      simp only [List.foldl_cons]
      rcases List.mem_cons.mp hmem with h | h
      · subst h
        rw [alookup_foldl_ainsert_not_mem rest k hnd.1 (ainsert t0 k v)]
        exact alookup_ainsert_self t0 k v
      · exact ih hnd.2 h (ainsert t0 p.1 p.2)

theorem nodup_keys_foldl_ainsert {α : Type} (l : List (String × α)) :
    ∀ t0 : List (String × α), (t0.map Prod.fst).Nodup →
    (((l.foldl (fun t p => ainsert t p.1 p.2) t0)).map Prod.fst).Nodup := by
  induction l with
  | nil => intro t0 h; exact h
  | cons p rest ih =>
      intro t0 h
      simp only [List.foldl_cons]
      exact ih (ainsert t0 p.1 p.2) (nodup_keys_ainsert t0 p.1 p.2 h)

/-! ## Helper lemmas about the membership-log line format -/

theorem splitLinesAux_ne_nil (cs : List Char) : ∀ acc, splitLinesAux cs acc ≠ [] := by
  induction cs with
  | nil => intro acc; simp [splitLinesAux]
  | cons c rest ih =>
      intro acc
      simp only [splitLinesAux]
      by_cases h : c = '\n'
      · rw [if_pos h]; simp
      · rw [if_neg h]; exact ih (c :: acc)

theorem splitLines_ne_nil (cs : List Char) : splitLines cs ≠ [] :=
  splitLinesAux_ne_nil cs []

theorem splitLinesAux_no_nl (cs : List Char) (h : '\n' ∉ cs) :
    ∀ acc, splitLinesAux cs acc = [acc.reverse ++ cs] := by
  induction cs with
  | nil => intro acc; simp [splitLinesAux]
  | cons c rest ih =>
      intro acc
      simp only [List.mem_cons] at h
      push_neg at h
      simp only [splitLinesAux, if_neg (fun hh : c = '\n' => h.1 hh.symm)]
      rw [ih h.2 (c :: acc)]
      simp

/-- A newline-free character list is a single line. -/
theorem splitLines_no_nl (cs : List Char) (h : '\n' ∉ cs) : splitLines cs = [cs] := by
  rw [splitLines, splitLinesAux_no_nl cs h []]
  rfl

theorem splitLinesAux_append_nl (xs : List Char) : ∀ (acc ys : List Char),
    splitLinesAux (xs ++ '\n' :: ys) acc = splitLinesAux xs acc ++ splitLines ys := by
  induction xs with
  | nil =>
      intro acc ys
      simp [splitLinesAux, splitLines]
  | cons c rest ih =>
      intro acc ys
      by_cases h : c = '\n'
      · subst h
        simp [splitLinesAux, ih [] ys]
      · simp [splitLinesAux, h, ih (c :: acc) ys]

/-- Splitting a file at a newline that joins two parts gives the two
parts' lines, concatenated. -/
theorem splitLines_append_nl (xs ys : List Char) :
    splitLines (xs ++ '\n' :: ys) = splitLines xs ++ splitLines ys :=
  splitLinesAux_append_nl xs [] ys

/-- Splitting at the first space of `a ++ ' ' :: b` recovers `a` and `b`
when `a` itself has no space. -/
theorem splitFirstSpace_append (a b : List Char) (h : ' ' ∉ a) :
    splitFirstSpace (a ++ ' ' :: b) = some (a, b) := by
  induction a with
  | nil => simp [splitFirstSpace]
  | cons c rest ih =>
      simp only [List.mem_cons] at h
      push_neg at h
      have hc : ¬ c = ' ' := fun hh => h.1 hh.symm
      simp [splitFirstSpace, hc, ih h.2]

theorem string_data_ne_nil (id : String) (h : id ≠ "") : id.data ≠ [] := by
  intro hd
  apply h
  cases id with
  | mk l =>
      simp only [String.data] at hd
      subst hd
      rfl

theorem take_len_append {α : Type} (a b : List α) (n : Nat) :
    (a ++ b).take (a.length + n) = a ++ b.take n := by
  induction a with
  | nil => simp
  | cons c rest ih => simp [List.take, ih, Nat.succ_add]

theorem lineFor_own (id : String) (s : List Char) :
    lineFor id (id.data ++ ' ' :: s) = true := by
  have ht : (id.data ++ ' ' :: s).take (id.data.length + 1) = id.data ++ [' '] := by
    rw [take_len_append id.data (' ' :: s) 1]
    rfl
  simp only [lineFor, ht]
  simp

theorem lineFor_nil (id : String) (h : id ≠ "") : lineFor id [] = false := by
  have hd := string_data_ne_nil id h
  simp [lineFor]
  exact hd

theorem any_space_nl_false (l : List Char)
    (h : l.any (fun c => c = ' ' ∨ c = '\n') = false) : ' ' ∉ l ∧ '\n' ∉ l := by
  simp only [List.any_eq_false, decide_eq_true_eq] at h
  constructor
  · intro hm
    exact (h ' ' hm) (Or.inl rfl)
  · intro hm
    exact (h '\n' hm) (Or.inr rfl)

theorem contains_nl_false (l : List Char) (h : l.contains '\n' = false) : '\n' ∉ l := by
  simpa using h

/-! ## Claim C1 — Register error handling -/

/-- C1 counterexample: the claim says Register fails with `InvalidInput`
whenever the tenant id contains whitespace, but `NewTeam` only checks for
a space or a newline (`strings.ContainsAny(teamID, " \n")`): an id
containing a tab — a whitespace character — registers successfully. -/
theorem c1_counterexample :
    (NewTeam emptyGovernor ("a\tb") ("s")).2 = none ∧
    goIsSpace '\t' = true ∧ '\t' ∈ ("a\tb" : String).data ∧
    (NewTeam emptyGovernor ("a\tb") ("s")).2 ≠ some GovError.invalidTeamID ∧
    (NewTeam emptyGovernor ("a\tb") ("s")).2 ≠ some GovError.invalidSetupData := by
  refine ⟨?_, rfl, ?_, ?_, ?_⟩ <;> decide

/-- C1 (amended): `NewTeam` fails with `DuplicateTenant` when the id is
already active; it fails with `InvalidInput` when the id contains a
space or a newline (not arbitrary whitespace) or the setup data contains
a newline; in every failure case nothing is appended to the membership
log and the tenant map is unchanged (the returned state is exactly the
input state); and after two Register calls for the same valid fresh id,
exactly the first has succeeded and the membership log contains exactly
one line for that id. -/
theorem c1_register_error_handling (g : Governor) (id setup s1 s2 : String) :
    ((alookup g.teams id).isSome = true →
      NewTeam g id setup = (g, some GovError.duplicateTeam)) ∧
    ((alookup g.teams id).isSome = false →
      id.data.any (fun c => c = ' ' ∨ c = '\n') = true →
      NewTeam g id setup = (g, some GovError.invalidTeamID)) ∧
    ((alookup g.teams id).isSome = false →
      id.data.any (fun c => c = ' ' ∨ c = '\n') = false →
      setup.data.contains '\n' = true →
      NewTeam g id setup = (g, some GovError.invalidSetupData)) ∧
    (∀ e, (NewTeam g id setup).2 = some e → (NewTeam g id setup).1 = g) ∧
    (id ≠ "" →
      alookup g.teams id = none →
      id.data.any (fun c => c = ' ' ∨ c = '\n') = false →
      s1.data.contains '\n' = false →
      (g.teamFile = [] ∨ ∃ f0, g.teamFile = f0 ++ ['\n']) →
      countLinesFor g.teamFile id = 0 →
      (NewTeam g id s1).2 = none ∧
      (NewTeam (NewTeam g id s1).1 id s2).2 = some GovError.duplicateTeam ∧
      countLinesFor (NewTeam (NewTeam g id s1).1 id s2).1.teamFile id = 1) := by
  refine ⟨?_, ?_, ?_, ?_, ?_⟩
  · intro h
    simp [NewTeam, h]
  · intro h1 h2
    have h2e : ∃ x ∈ id.data, x = ' ' ∨ x = '\n' := by simpa using h2
    simp [NewTeam, h1, h2e]
  · intro h1 h2 h3
    have h2e : ¬ ∃ x ∈ id.data, x = ' ' ∨ x = '\n' := by simpa using h2
    have h3e : '\n' ∈ setup.data := by simpa using h3
    simp [NewTeam, h1, h2e, h3e]
  · intro e he
    by_cases h1 : (alookup g.teams id).isSome = true
    · simp [NewTeam, h1]
    · by_cases h2 : ∃ x ∈ id.data, x = ' ' ∨ x = '\n'
      · simp [NewTeam, h1, h2]
      · by_cases h3 : '\n' ∈ setup.data
        · simp [NewTeam, h1, h2, h3]
        · exfalso
          simp [NewTeam, h1, h2, h3] at he
  · intro h0 hlk hid hs1 hterm hcnt
    have hlk2 : (alookup g.teams id).isSome = false := by rw [hlk]; rfl
    have hide : ¬ ∃ x ∈ id.data, x = ' ' ∨ x = '\n' := by simpa using hid
    have hs1e : '\n' ∉ s1.data := contains_nl_false _ hs1
    have hrun : NewTeam g id s1 =
        ({ teams := ainsert g.teams id (mkTeam id s1),
           teamFile := appendTeamDefinition g.teamFile id s1 }, none) := by
      simp [NewTeam, hlk2, hide, hs1e]
    have hdup : NewTeam (NewTeam g id s1).1 id s2 =
        ((NewTeam g id s1).1, some GovError.duplicateTeam) := by
      rw [hrun]
      simp [NewTeam, alookup_ainsert_self]
    have hsp := any_space_nl_false id.data hid
    have hline : '\n' ∉ (id.data ++ ' ' :: s1.data) := by
      intro hm
      rcases List.mem_append.mp hm with hm | hm
      · exact hsp.2 hm
      · rcases List.mem_cons.mp hm with hm | hm
        · exact absurd hm (by decide)
        · exact hs1e hm
    have hone : (splitLines ((id.data ++ ' ' :: s1.data) ++ '\n' :: [])).countP
        (fun l => lineFor id l) = 1 := by
      rw [splitLines_append_nl, splitLines_no_nl _ hline]
      simp [splitLines, splitLinesAux, List.countP_cons, lineFor_own,
        lineFor_nil id h0]
    have happ2 : appendTeamDefinition g.teamFile id s1 =
        g.teamFile ++ ((id.data ++ ' ' :: s1.data) ++ '\n' :: []) := by
      simp [appendTeamDefinition]
    refine ⟨by rw [hrun], by rw [hdup], ?_⟩
    rw [hdup]
    show countLinesFor (NewTeam g id s1).1.teamFile id = 1
    rw [hrun]
    show countLinesFor (appendTeamDefinition g.teamFile id s1) id = 1
    rw [countLinesFor, happ2]
    rcases hterm with hterm | ⟨f0, hterm⟩
    · rw [hterm, List.nil_append]
      exact hone
    · rw [hterm, List.append_assoc, List.singleton_append,
        splitLines_append_nl, List.countP_append]
      have hnil : (splitLines ([] : List Char)).countP (fun l => lineFor id l) = 0 := by
        simp [splitLines, splitLinesAux, lineFor_nil id h0]
      have h5 := hcnt
      rw [countLinesFor, hterm,
        show f0 ++ ['\n'] = f0 ++ '\n' :: [] from rfl,
        splitLines_append_nl, List.countP_append, hnil] at h5
      rw [hone]
      omega

/-- C1 witness: the amended theorem applied to two concrete Register
calls for the id `t1` from the empty Governor. -/
theorem c1_register_error_handling_witness :
    (NewTeam emptyGovernor ("t1") ("s1")).2 = none ∧
    (NewTeam (NewTeam emptyGovernor ("t1") ("s1")).1 ("t1") ("s2")).2 =
      some GovError.duplicateTeam ∧
    countLinesFor (NewTeam (NewTeam emptyGovernor ("t1") ("s1")).1 ("t1")
      ("s2")).1.teamFile ("t1") = 1 := by
  have h := (c1_register_error_handling emptyGovernor ("t1") ("x") ("s1")
    ("s2")).2.2.2.2
  exact h (by decide) (by rfl) (by decide) (by decide) (Or.inl rfl) (by decide)

/-! ## Claim C2 — Registration / load round trip -/

/-- C2 counterexample: registering the tenant `t1` with empty setup data
succeeds (empty setup contains no newline), appending the line `"t1 \n"`;
but reloading from the membership log then fails, because the reader
trims the line to `"t1"`, which has no space separator — a fatal load
error, not the tenant running again with the same setup data. -/
theorem c2_counterexample :
    (NewTeam emptyGovernor ("t1") ("")).2 = none ∧
    readTeamFile (NewTeam emptyGovernor ("t1") ("")).1.teamFile =
      Except.error () ∧
    loadGovernor (NewTeam emptyGovernor ("t1") ("")).1.teamFile =
      Except.error () := by
  refine ⟨by decide, by rfl, by rfl⟩

/-- C2 (amended): a successful Register appends exactly the line
`"<id> <setupData>\n"`; provided additionally that the setup data is
nonempty, the line survives trimming (the id does not start with
whitespace and the setup data does not end with whitespace) and the id
does not start with `#`, reloading the Registry from the membership log
alone yields the tenant running again with the same setup data and the
log unchanged; during loading, lines that trim to empty or to a `#`
comment are ignored, and a nonempty non-comment line with no space
separator makes the load fail. -/
theorem c2_round_trip (g : Governor) (id s : String) (l : List Char)
    (ls : List (List Char)) (acc : List (String × String)) :
    ((NewTeam g id s).2 = none →
      (NewTeam g id s).1.teamFile =
        g.teamFile ++ id.data ++ ' ' :: s.data ++ ['\n']) ∧
    (id ≠ "" →
      id.data.any (fun c => c = ' ' ∨ c = '\n') = false →
      s.data.contains '\n' = false →
      goTrimSpace (id.data ++ ' ' :: s.data) = id.data ++ ' ' :: s.data →
      id.data.head? ≠ some '#' →
      (NewTeam emptyGovernor id s).2 = none ∧
      readTeamFile (NewTeam emptyGovernor id s).1.teamFile =
        Except.ok [(id, s)] ∧
      loadGovernor (NewTeam emptyGovernor id s).1.teamFile =
        Except.ok { teams := [(id, mkTeam id s)],
                    teamFile := (NewTeam emptyGovernor id s).1.teamFile }) ∧
    (goTrimSpace l = [] ∨ (goTrimSpace l).head? = some '#' →
      readTeamLines (l :: ls) acc = readTeamLines ls acc) ∧
    (goTrimSpace l ≠ [] →
      (goTrimSpace l).head? ≠ some '#' →
      splitFirstSpace (goTrimSpace l) = none →
      readTeamLines (l :: ls) acc = Except.error ()) := by
  refine ⟨?_, ?_, ?_, ?_⟩
  · intro hok
    by_cases h1 : (alookup g.teams id).isSome = true
    · simp [NewTeam, h1] at hok
    · by_cases h2 : ∃ x ∈ id.data, x = ' ' ∨ x = '\n'
      · simp [NewTeam, h1, h2] at hok
      · by_cases h3 : '\n' ∈ s.data
        · simp [NewTeam, h1, h2, h3] at hok
        · simp [NewTeam, h1, h2, h3, appendTeamDefinition]
  · intro h0 hid hs htrim hhash
    have hide : ¬ ∃ x ∈ id.data, x = ' ' ∨ x = '\n' := by simpa using hid
    have hse : '\n' ∉ s.data := contains_nl_false _ hs
    have hsp := any_space_nl_false id.data hid
    have hrun : NewTeam emptyGovernor id s =
        ({ teams := [(id, mkTeam id s)],
           teamFile := (id.data ++ ' ' :: s.data) ++ '\n' :: [] }, none) := by
      simp [NewTeam, emptyGovernor, alookup, hide, hse, appendTeamDefinition,
        ainsert]
    have hline : '\n' ∉ (id.data ++ ' ' :: s.data) := by
      intro hm
      rcases List.mem_append.mp hm with hm | hm
      · exact hsp.2 hm
      · rcases List.mem_cons.mp hm with hm | hm
        · exact absurd hm (by decide)
        · exact hse hm
    have hsplit : splitLines ((id.data ++ ' ' :: s.data) ++ '\n' :: []) =
        [id.data ++ ' ' :: s.data, []] := by
      rw [splitLines_append_nl, splitLines_no_nl _ hline]
      rfl
    have hLne : (id.data ++ ' ' :: s.data) ≠ [] := by
      cases hd : id.data with
      | nil => simp
      | cons c r => simp
    have hLhash : (id.data ++ ' ' :: s.data).head? ≠ some '#' := by
      cases hd : id.data with
      | nil => simp
      | cons c r =>
          rw [hd] at hhash
          simpa using hhash
    have hcond : ¬((id.data ++ ' ' :: s.data) = [] ∨
        (id.data ++ ' ' :: s.data).head? = some '#') := by
      push_neg
      exact ⟨hLne, hLhash⟩
    have hmkid : String.mk id.data = id := rfl
    have hmks : String.mk s.data = s := rfl
    have htnil : goTrimSpace ([] : List Char) = [] := rfl
    have hreads : readTeamLines [id.data ++ ' ' :: s.data, []] [] =
        Except.ok [(id, s)] := by
      simp only [readTeamLines, htrim, htnil]
      rw [if_neg hcond]
      rw [splitFirstSpace_append id.data s.data hsp.1]
      simp [hmkid, hmks, ainsert]
    have hread : readTeamFile ((id.data ++ ' ' :: s.data) ++ '\n' :: []) =
        Except.ok [(id, s)] := by
      rw [readTeamFile, hsplit]
      exact hreads
    refine ⟨by rw [hrun], ?_, ?_⟩
    · rw [hrun]
      exact hread
    · rw [hrun]
      show loadGovernor ((id.data ++ ' ' :: s.data) ++ '\n' :: []) = _
      rw [loadGovernor, hread]
      simp [StartTeam, alookup, ainsert]
  · intro h
    rcases h with h | h <;> simp [readTeamLines, h]
  · intro h1 h2 h3
    have hcond : ¬(goTrimSpace l = [] ∨ (goTrimSpace l).head? = some '#') := by
      push_neg
      exact ⟨h1, h2⟩
    simp [readTeamLines, hcond, h3]

/-- C2 witness: the amended round trip applied to the concrete tenant
`t1` with setup data `s1`. -/
theorem c2_round_trip_witness :
    readTeamFile (NewTeam emptyGovernor ("t1") ("s1")).1.teamFile =
      Except.ok [(("t1"), ("s1"))] ∧
    loadGovernor (NewTeam emptyGovernor ("t1") ("s1")).1.teamFile =
      Except.ok { teams := [(("t1"), mkTeam ("t1") ("s1"))],
                  teamFile := (NewTeam emptyGovernor ("t1") ("s1")).1.teamFile } := by
  have h := (c2_round_trip emptyGovernor ("t1") ("s1") [] [] []).2.1
  have h2 := h (by decide) (by decide) (by decide) (by decide) (by decide)
  exact ⟨h2.2.1, h2.2.2⟩

/-! ## Claim C3 — teardown paths of the tenant map -/

theorem keys_aerase_sublist {α : Type} (m : List (String × α)) (k : String) :
    ((aerase m k).map Prod.fst).Sublist (m.map Prod.fst) := by
  induction m with
  | nil => simp [aerase]
  | cons p rest ih =>
      obtain ⟨k0, w⟩ := p
      simp only [aerase]
      by_cases h0 : k0 = k
      · rw [if_pos h0]
        simp only [List.map_cons]
        exact (List.Sublist.refl _).cons _
      · rw [if_neg h0]
        simp only [List.map_cons]
        exact ih.cons₂ _

theorem nodup_keys_aerase {α : Type} (m : List (String × α)) (k : String)
    (h : (m.map Prod.fst).Nodup) : ((aerase m k).map Prod.fst).Nodup :=
  (keys_aerase_sublist m k).nodup h

theorem stepEvent_nodup (g : Governor) (ev : GEvent)
    (h : (g.teams.map Prod.fst).Nodup) :
    ((stepEvent g ev).teams.map Prod.fst).Nodup := by
  cases ev with
  | register id setup =>
      show ((NewTeam g id setup).1.teams.map Prod.fst).Nodup
      by_cases h1 : (alookup g.teams id).isSome = true
      · simpa [NewTeam, h1] using h
      · by_cases h2 : ∃ x ∈ id.data, x = ' ' ∨ x = '\n'
        · simpa [NewTeam, h1, h2] using h
        · by_cases h3 : '\n' ∈ setup.data
          · simpa [NewTeam, h1, h2, h3] using h
          · have hres : (NewTeam g id setup).1.teams =
                ainsert g.teams id (mkTeam id setup) := by
              simp [NewTeam, h1, h2, h3]
            rw [hres]
            exact nodup_keys_ainsert g.teams id (mkTeam id setup) h
  | runFail id msg =>
      cases hl : alookup g.teams id with
      | none => simpa [stepEvent, hl] using h
      | some t =>
          by_cases hst : t.status = TeamStatus.running
          · simp only [stepEvent, hl, if_pos hst]
            exact nodup_keys_ainsert g.teams id _ h
          · simpa [stepEvent, hl, if_neg hst] using h
  | chatUninstall id =>
      cases hl : alookup g.teams id with
      | none => simpa [stepEvent, hl] using h
      | some t =>
          simp only [stepEvent, hl]
          exact nodup_keys_aerase g.teams id h

theorem runEvents_nodup_keys (evs : List GEvent) :
    ((runEvents evs).teams.map Prod.fst).Nodup := by
  suffices h : ∀ g : Governor, (g.teams.map Prod.fst).Nodup →
      ((evs.foldl stepEvent g).teams.map Prod.fst).Nodup by
    exact h emptyGovernor (by simp [emptyGovernor])
  induction evs with
  | nil => intro g h; exact h
  | cons e rest ih =>
      intro g h
      simp only [List.foldl_cons]
      exact ih (stepEvent g e) (stepEvent_nodup g e h)

/-- C3 counterexample: register tenant `t`, then its `Run` goroutine
fails fatally — the Registry map still contains `t`, whose runtime has
terminated with an error.  `Team.Run` only records `t.runError` and
returns; nothing removes the map entry, contradicting the claim that a
fatal runtime error destroys the tenant like an uninstall does. -/
theorem c3_counterexample :
    alookup (runEvents [GEvent.register ("t") ("s"),
        GEvent.runFail ("t") ("boom")]).teams ("t") =
      some ({ id := ("t"), setupData := ("s"), canceler := none,
              status := TeamStatus.stoppedWithError ("boom"),
              runError := some ("boom") }) ∧
    TeamStatus.stoppedWithError ("boom") ≠ TeamStatus.running := by
  exact ⟨by rfl, by decide⟩

/-- C3 (amended): a fatal runtime error does *not* remove the tenant from
the map — the entry remains, with the error recorded in `runError`; the
"tenant uninstalled" chat-event signal removes the tenant from the map;
and that signal is the only event that ever removes a map entry.  The
tenant maps of all reachable Registry states have no duplicate ids. -/
theorem c3_only_uninstall_destroys (g : Governor) (id msg : String) (ev : GEvent) :
    (∀ t : MTeam, alookup g.teams id = some t →
      t.status = TeamStatus.running →
      alookup (stepEvent g (GEvent.runFail id msg)).teams id =
        some { t with status := TeamStatus.stoppedWithError msg,
                      runError := some msg }) ∧
    ((g.teams.map Prod.fst).Nodup →
      alookup (stepEvent g (GEvent.chatUninstall id)).teams id = none) ∧
    ((alookup g.teams id).isSome = true →
      (alookup (stepEvent g ev).teams id).isSome = false →
      ev = GEvent.chatUninstall id) ∧
    (∀ evs : List GEvent, ((runEvents evs).teams.map Prod.fst).Nodup) := by
  refine ⟨?_, ?_, ?_, fun evs => runEvents_nodup_keys evs⟩
  · intro t hl hst
    simp only [stepEvent, hl, if_pos hst]
    exact alookup_ainsert_self g.teams id _
  · intro hnd
    cases hl : alookup g.teams id with
    | none => simp [stepEvent, hl]
    | some t =>
        simp only [stepEvent, hl]
        exact alookup_aerase_self g.teams id hnd
  · intro hs hafter
    cases ev with
    | register id2 setup =>
        exfalso
        have hteams : (stepEvent g (GEvent.register id2 setup)).teams = g.teams ∨
            (stepEvent g (GEvent.register id2 setup)).teams =
              ainsert g.teams id2 (mkTeam id2 setup) := by
          by_cases h1 : (alookup g.teams id2).isSome = true
          · left; simp [stepEvent, NewTeam, h1]
          · by_cases h2 : ∃ x ∈ id2.data, x = ' ' ∨ x = '\n'
            · left; simp [stepEvent, NewTeam, h1, h2]
            · by_cases h3 : '\n' ∈ setup.data
              · left; simp [stepEvent, NewTeam, h1, h2, h3]
              · right; simp [stepEvent, NewTeam, h1, h2, h3]
        rcases hteams with hteams | hteams <;> rw [hteams] at hafter
        · rw [hs] at hafter
          exact Bool.noConfusion hafter
        · rw [alookup_isSome_ainsert g.teams id2 id _ hs] at hafter
          exact Bool.noConfusion hafter
    | runFail id2 msg2 =>
        exfalso
        cases hl : alookup g.teams id2 with
        | none =>
            simp only [stepEvent, hl] at hafter
            rw [hs] at hafter
            exact Bool.noConfusion hafter
        | some t =>
            by_cases hst : t.status = TeamStatus.running
            · simp only [stepEvent, hl, if_pos hst] at hafter
              rw [alookup_isSome_ainsert g.teams id2 id _ hs] at hafter
              exact Bool.noConfusion hafter
            · simp only [stepEvent, hl, if_neg hst] at hafter
              rw [hs] at hafter
              exact Bool.noConfusion hafter
    | chatUninstall id2 =>
        by_cases hid : id2 = id
        · rw [hid]
        · exfalso
          cases hl : alookup g.teams id2 with
          | none =>
              simp only [stepEvent, hl] at hafter
              rw [hs] at hafter
              exact Bool.noConfusion hafter
          | some t =>
              simp only [stepEvent, hl] at hafter
              rw [alookup_aerase_ne g.teams id2 id
                (fun hh => hid hh.symm)] at hafter
              rw [hs] at hafter
              exact Bool.noConfusion hafter

/-- C3 witness: the amended theorem applied concretely — a failed
runtime stays in the map with its error recorded, and an uninstall
removes it. -/
theorem c3_only_uninstall_destroys_witness :
    alookup (stepEvent (runEvents [GEvent.register ("t") ("s")])
        (GEvent.runFail ("t") ("boom"))).teams ("t") =
      some ({ id := ("t"), setupData := ("s"), canceler := none,
              status := TeamStatus.stoppedWithError ("boom"),
              runError := some ("boom") }) ∧
    alookup (stepEvent (runEvents [GEvent.register ("t") ("s")])
        (GEvent.chatUninstall ("t"))).teams ("t") = none := by
  constructor
  · exact (c3_only_uninstall_destroys (runEvents [GEvent.register ("t") ("s")])
      ("t") ("boom") (GEvent.chatUninstall ("t"))).1
      (mkTeam ("t") ("s")) (by rfl) (by rfl)
  · exact (c3_only_uninstall_destroys (runEvents [GEvent.register ("t") ("s")])
      ("t") ("boom") (GEvent.chatUninstall ("t"))).2.1 (by decide)

/-! ## Claim C4 — Team.Close panics -/

/-- C4: the claim says `Team.Close` cancels the scope and closes the
Store without panicking for every team, idempotently.  In the code the
`canceler` field is never assigned on any path — the team built by
registration carries a nil `context.CancelFunc` — and `Close`'s first
statement calls it, so every `Close` call panics instead (including the
one `Run` itself makes when its errgroup exits). -/
theorem c4_close_panics :
    alookup (runEvents [GEvent.register ("t1") ("s1")]).teams ("t1") =
      some (mkTeam ("t1") ("s1")) ∧
    (mkTeam ("t1") ("s1")).canceler = none ∧
    TeamClose (mkTeam ("t1") ("s1")) =
      Except.error ClosePanic.nilFunctionCall := by
  exact ⟨by rfl, by rfl, by rfl⟩

/-! ## Claim C5 — associate / resolve chat IDs -/

/-- C5 counterexample: associating a second chat ID with an
already-known Gerrit user fails — `AssociateChatIDWithGerritUser` does a
plain dbx `create` (INSERT), and `gerrit_username` is the primary key —
so the later association is not stored, and the lookup still resolves
the first chat ID, not the last associated one. -/
theorem c5_counterexample :
    (AssociateChatIDWithGerritUser (AssociateChatIDWithGerritUser emptyPDB
        ("u") ("c1")).1 ("u") ("c2")).2 = some DBErr.uniqueViolation ∧
    (LookupChatIDForGerritUser (AssociateChatIDWithGerritUser
        (AssociateChatIDWithGerritUser emptyPDB ("u") ("c1")).1 ("u")
        ("c2")).1 ("u")).2 = Except.ok ("c1") ∧
    ("c1" : String) ≠ ("c2" : String) := by
  exact ⟨by rfl, by rfl, by decide⟩

/-- C5 (amended): for a Gerrit user not yet in the store, an association
succeeds and a subsequent lookup resolves exactly that chat ID, whether
the cache is warm or cold (emptied); for an already-known user the
association fails with a unique-constraint violation and leaves the
whole state (store and cache) unchanged, so the resolved value is that
of the first — not the last — association. -/
theorem c5_associate_then_lookup (p : PDB) (u c : String) :
    (alookup p.db.gerritUsers u = none →
      (AssociateChatIDWithGerritUser p u c).2 = none ∧
      (LookupChatIDForGerritUser (AssociateChatIDWithGerritUser p u c).1 u).2 =
        Except.ok c ∧
      (LookupChatIDForGerritUser
        { (AssociateChatIDWithGerritUser p u c).1 with cache := [] } u).2 =
        Except.ok c) ∧
    (∀ v, alookup p.db.gerritUsers u = some v →
      AssociateChatIDWithGerritUser p u c = (p, some DBErr.uniqueViolation)) := by
  constructor
  · intro hl
    have hassoc : AssociateChatIDWithGerritUser p u c =
        (PDB.mk (DBState.mk (ainsert p.db.gerritUsers u (GerritUserRow.mk c none))
          p.db.inlineComments p.db.teamConfigs p.db.announcements)
          (ainsert p.cache u c), none) := by
      simp [AssociateChatIDWithGerritUser, CreateNoReturn_GerritUser, hl]
    refine ⟨by rw [hassoc], ?_, ?_⟩
    · rw [hassoc]
      simp [LookupChatIDForGerritUser, alookup_ainsert_self]
    · rw [hassoc]
      simp [LookupChatIDForGerritUser, alookup, LookupGerritUser,
        alookup_ainsert_self]
  · intro v hl
    simp [AssociateChatIDWithGerritUser, CreateNoReturn_GerritUser, hl]

/-- C5 witness: the amended theorem at a concrete fresh user. -/
theorem c5_associate_then_lookup_witness :
    (LookupChatIDForGerritUser (AssociateChatIDWithGerritUser emptyPDB ("u")
        ("c1")).1 ("u")).2 = Except.ok ("c1") :=
  ((c5_associate_then_lookup emptyPDB ("u") ("c1")).1 (by rfl)).2.1

/-! ## Claim C6 — idempotence of recording seen comments -/

/-- C6 counterexample: record comment `id1` at time 5, then record it
again at time 9.  The second call finds `id1` already present, deletes
it from the candidate set *before* the bulk insert, and therefore leaves
the stored row untouched: its timestamp remains 5, not refreshed to 9 as
the claim (and the `ON CONFLICT ... DO UPDATE` clause, which is never
reached sequentially) would have it. -/
theorem c6_counterexample :
    alookup (IdentifyNewInlineComments (IdentifyNewInlineComments []
        [(("id1"), (5 : Int))]).2 [(("id1"), (9 : Int))]).2 ("id1") =
      some 5 ∧ (5 : Int) ≠ 9 := by
  exact ⟨by rfl, by decide⟩

/-- C6 (amended): `IdentifyNewInlineComments` is a no-op on an empty
input; it never produces a duplicate row for a comment id; recording an
id that is already present leaves that row — including its timestamp —
completely untouched (the id is filtered out of the candidate set before
the insert); and each genuinely new id is inserted with its given
timestamp. -/
theorem c6_record_seen_comments (table cs : List (String × Int)) :
    (IdentifyNewInlineComments table [] = ([], table)) ∧
    ((table.map Prod.fst).Nodup →
      ((IdentifyNewInlineComments table cs).2.map Prod.fst).Nodup) ∧
    (∀ id t0, alookup table id = some t0 →
      alookup (IdentifyNewInlineComments table cs).2 id = some t0) ∧
    ((cs.map Prod.fst).Nodup →
      ∀ id t0, alookup table id = none → (id, t0) ∈ cs →
      alookup (IdentifyNewInlineComments table cs).2 id = some t0) := by
  refine ⟨rfl, ?_, ?_, ?_⟩
  · intro h
    by_cases hcs : cs = []
    · subst hcs
      exact h
    · have hres : (IdentifyNewInlineComments table cs).2 =
          (cs.filter (fun q => (alookup table q.1).isNone)).foldl
            (fun t q => ainsert t q.1 q.2) table := by
        simp [IdentifyNewInlineComments, hcs]
      rw [hres]
      exact nodup_keys_foldl_ainsert _ table h
  · intro id t0 hl
    by_cases hcs : cs = []
    · subst hcs
      exact hl
    · have hres : (IdentifyNewInlineComments table cs).2 =
          (cs.filter (fun q => (alookup table q.1).isNone)).foldl
            (fun t q => ainsert t q.1 q.2) table := by
        simp [IdentifyNewInlineComments, hcs]
      rw [hres]
      have hnm : id ∉ (cs.filter
          (fun q => (alookup table q.1).isNone)).map Prod.fst := by
        intro hmem
        rcases List.mem_map.mp hmem with ⟨q, hq, hqid⟩
        have hfq := List.of_mem_filter hq
        rw [hqid, hl] at hfq
        exact Bool.noConfusion hfq
      rw [alookup_foldl_ainsert_not_mem _ id hnm table]
      exact hl
  · intro hnd id t0 hl hmem
    have hcsne : ¬ cs = [] := by
      rintro rfl
      exact List.not_mem_nil _ hmem
    have hres : (IdentifyNewInlineComments table cs).2 =
        (cs.filter (fun q => (alookup table q.1).isNone)).foldl
          (fun t q => ainsert t q.1 q.2) table := by
      simp [IdentifyNewInlineComments, hcsne]
    rw [hres]
    have hndf : ((cs.filter
        (fun q => (alookup table q.1).isNone)).map Prod.fst).Nodup :=
      ((List.filter_sublist cs).map Prod.fst).nodup hnd
    have hmemf : (id, t0) ∈ cs.filter (fun q => (alookup table q.1).isNone) :=
      List.mem_filter.mpr ⟨hmem, by simp [hl]⟩
    exact alookup_foldl_ainsert_mem _ id t0 hndf hmemf table

/-- C6 witness: the amended theorem at a concrete table and input. -/
theorem c6_record_seen_comments_witness :
    alookup (IdentifyNewInlineComments [(("a"), (1 : Int))]
        [(("b"), (3 : Int))]).2 ("a") = some 1 ∧
    alookup (IdentifyNewInlineComments [(("a"), (1 : Int))]
        [(("b"), (3 : Int))]).2 ("b") = some 3 := by
  constructor
  · exact (c6_record_seen_comments [(("a"), (1 : Int))]
      [(("b"), (3 : Int))]).2.2.1 ("a") 1 (by rfl)
  · exact (c6_record_seen_comments [(("a"), (1 : Int))]
      [(("b"), (3 : Int))]).2.2.2 (by decide) ("b") 3 (by rfl) (by decide)

/-! ## Claim C7 — Prune retention boundaries -/

/-- C7: `Prune(now)` deletes exactly the inline-comment rows with
`updated_at` strictly earlier than `now - 2*w` (a row exactly at the
boundary survives, the dbx delete being a strict `<`), deletes exactly
the patchset-announcement rows with `ts` strictly earlier than `now`
minus `days` days, and leaves every other row — and the other two
tables — untouched. -/
theorem c7_prune_boundaries (d : DBState) (now w days : Int) :
    (∀ pr : String × Int, pr ∈ (Prune d now w days).inlineComments ↔
      pr ∈ d.inlineComments ∧ ¬ pr.2 < now - 2 * w) ∧
    (∀ id : String, (id, now - 2 * w) ∈ d.inlineComments →
      (id, now - 2 * w) ∈ (Prune d now w days).inlineComments) ∧
    (∀ a : AnnRow, a ∈ (Prune d now w days).announcements ↔
      a ∈ d.announcements ∧ ¬ a.ts < now - dayNanos days) ∧
    (Prune d now w days).gerritUsers = d.gerritUsers ∧
    (Prune d now w days).teamConfigs = d.teamConfigs := by
  refine ⟨?_, ?_, ?_, rfl, rfl⟩
  · intro pr
    simp [Prune, List.mem_filter]
  · intro id hm
    simp only [Prune, List.mem_filter]
    refine ⟨hm, ?_⟩
    simp
  · intro a
    simp [Prune, List.mem_filter]

/-- A sample store contents for the C7 witness: one inline-comment row
exactly at the retention boundary `now - 2*w` for `now = 10, w = 1`, and
one announcement row inside its retention window. -/
def pruneSampleDB : DBState :=
  { gerritUsers := [],
    inlineComments := [(("a"), (8 : Int))],
    teamConfigs := [],
    announcements := [AnnRow.mk ("p") 1 2 ("h") 0] }

/-- C7 witness: the boundary row `updated_at = now - 2*w` survives a
concrete prune. -/
theorem c7_prune_boundaries_witness :
    ((("a" : String), (10 : Int) - 2 * 1) ∈
      (Prune pruneSampleDB 10 1 7).inlineComments) ∧
    ((10 : Int) - 2 * 1 = 8) :=
  ⟨(c7_prune_boundaries pruneSampleDB 10 1 7).2.1 ("a") (by decide),
   by decide⟩

/-! ## Claim C10 — the caller's comment map is mutated -/

/-- C10: `IdentifyNewInlineComments` deletes every already-present id
from the caller's map (the returned map is the input filtered to ids
with no row), and after a call the caller's map holds exactly the newly
recorded ids: each of its entries had no row before and has exactly its
given timestamp recorded now. -/
theorem c10_caller_map_mutation (table cs : List (String × Int)) :
    ((IdentifyNewInlineComments table cs).1 =
      cs.filter (fun q => (alookup table q.1).isNone)) ∧
    ((cs.map Prod.fst).Nodup →
      ∀ q : String × Int, q ∈ (IdentifyNewInlineComments table cs).1 →
      alookup table q.1 = none ∧
      alookup (IdentifyNewInlineComments table cs).2 q.1 = some q.2) := by
  have hmap : (IdentifyNewInlineComments table cs).1 =
      cs.filter (fun q => (alookup table q.1).isNone) := by
    by_cases hcs : cs = []
    · subst hcs
      rfl
    · simp [IdentifyNewInlineComments, hcs]
  refine ⟨hmap, ?_⟩
  intro hnd q hq
  rw [hmap] at hq
  have hnone : alookup table q.1 = none := by
    have hfq := List.of_mem_filter hq
    simpa using hfq
  refine ⟨hnone, ?_⟩
  have hcsne : ¬ cs = [] := by
    rintro rfl
    exact List.not_mem_nil _ hq
  have hres : (IdentifyNewInlineComments table cs).2 =
      (cs.filter (fun r => (alookup table r.1).isNone)).foldl
        (fun t r => ainsert t r.1 r.2) table := by
    simp [IdentifyNewInlineComments, hcsne]
  rw [hres]
  have hndf : ((cs.filter
      (fun r => (alookup table r.1).isNone)).map Prod.fst).Nodup :=
    ((List.filter_sublist cs).map Prod.fst).nodup hnd
  exact alookup_foldl_ainsert_mem _ q.1 q.2 hndf hq table

/-- C10 witness: a concrete call — the already-present id `a` is removed
from the caller's map, the new id `b` stays and is recorded. -/
theorem c10_caller_map_mutation_witness :
    (IdentifyNewInlineComments [(("a"), (1 : Int))]
      [(("a"), (2 : Int)), (("b"), (3 : Int))]).1 = [(("b"), (3 : Int))] ∧
    alookup (IdentifyNewInlineComments [(("a"), (1 : Int))]
      [(("a"), (2 : Int)), (("b"), (3 : Int))]).2 ("b") = some 3 := by
  constructor
  · have h := (c10_caller_map_mutation [(("a"), (1 : Int))]
      [(("a"), (2 : Int)), (("b"), (3 : Int))]).1
    rw [h]
    decide
  · exact ((c10_caller_map_mutation [(("a"), (1 : Int))]
      [(("a"), (2 : Int)), (("b"), (3 : Int))]).2 (by decide)
      (("b"), (3 : Int)) (by decide)).2

/-! ## Claim C8 — GetConfigBool token sets -/

/-- C8: for every config key, `GetConfigBool` returns `(true, nil)` when
the stored value lowercased is one of the true tokens, `(false, nil)` on
the false tokens, `(default, nil)` when the stored value is empty or the
key is absent, and `(default, error)` on any other non-empty value. -/
theorem c8_get_config_bool (d : DBState) (key : String) (b : Bool) :
    (alookup d.teamConfigs key = none → GetConfigBool d key b = (b, none)) ∧
    (alookup d.teamConfigs key = some ("") → GetConfigBool d key b = (b, none)) ∧
    (∀ v, alookup d.teamConfigs key = some v → goToLower v ∈ trueTokens →
      GetConfigBool d key b = (true, none)) ∧
    (∀ v, alookup d.teamConfigs key = some v → goToLower v ∈ falseTokens →
      GetConfigBool d key b = (false, none)) ∧
    (∀ v, alookup d.teamConfigs key = some v → v ≠ "" →
      goToLower v ∉ trueTokens → goToLower v ∉ falseTokens →
      GetConfigBool d key b = (b, some DBErr.invalidBoolValue)) := by
  refine ⟨?_, ?_, ?_, ?_, ?_⟩
  · intro h
    simp [GetConfigBool, GetConfig, h]
  · intro h
    simp [GetConfigBool, GetConfig, h]
  · intro v hv htok
    have hne : v ≠ "" := by
      rintro rfl
      exact absurd htok (by decide)
    simp [GetConfigBool, GetConfig, hv, hne, htok]
  · intro v hv htok
    have hne : v ≠ "" := by
      rintro rfl
      exact absurd htok (by decide)
    have hnott : goToLower v ∉ trueTokens := by
      intro hmem
      simp only [trueTokens, List.mem_cons, List.not_mem_nil, or_false] at hmem
      rcases hmem with h | h | h | h | h | h <;> rw [h] at htok <;>
        exact absurd htok (by decide)
    simp [GetConfigBool, GetConfig, hv, hne, hnott, htok]
  · intro v hv hne h1 h2
    simp [GetConfigBool, GetConfig, hv, hne, h1, h2]

/-- A sample config table for the C8 witness, holding the four example
values of the spec under four keys. -/
def boolSampleConfigs : List (String × String) :=
  [(("k1"), ("YES")), (("k2"), ("0")), (("k3"), ("")), (("k4"), ("maybe"))]

/-- A sample store for the C8 witness. -/
def boolSampleDB : DBState :=
  { gerritUsers := [], inlineComments := [],
    teamConfigs := boolSampleConfigs, announcements := [] }

/-- C8 witness: the spec's four examples — values `"YES"`, `"0"`, `""`
and `"maybe"` (and an absent key) give `true, nil`; `false, nil`;
`default, nil`; `default, error`; `default, nil`. -/
theorem c8_get_config_bool_witness :
    GetConfigBool boolSampleDB ("k1") false = (true, none) ∧
    GetConfigBool boolSampleDB ("k2") true = (false, none) ∧
    GetConfigBool boolSampleDB ("k3") true = (true, none) ∧
    GetConfigBool boolSampleDB ("k4") false =
      (false, some DBErr.invalidBoolValue) ∧
    GetConfigBool boolSampleDB ("nokey") true = (true, none) := by
  refine ⟨?_, ?_, ?_, ?_, ?_⟩
  · exact (c8_get_config_bool boolSampleDB ("k1") false).2.2.1 ("YES")
      (by rfl) (by decide)
  · exact (c8_get_config_bool boolSampleDB ("k2") true).2.2.2.1 ("0")
      (by rfl) (by decide)
  · exact (c8_get_config_bool boolSampleDB ("k3") true).2.1 (by rfl)
  · exact (c8_get_config_bool boolSampleDB ("k4") false).2.2.2.2 ("maybe")
      (by rfl) (by decide) (by decide) (by decide)
  · exact (c8_get_config_bool boolSampleDB ("nokey") true).1 (by rfl)

/-! ## Claim C9 — integer config radix mismatch -/

/-- C9: `SetConfigInt` encodes in base 32 (`FormatInt(v, 32)`; for
example 10 is stored as `"a"`) while `GetConfigInt` parses with an
auto-detected base (`ParseInt(val, 0, 32)`, which rejects `"a"`), so
there is an integer — 10 among them — whose store-then-read round trip
does not return `(v, nil)`: the round trip is not the identity. -/
theorem c9_int_radix_mismatch (d : DBState) (key : String) (dv : Int) :
    goFormatBase32 10 = ("a" : String) ∧
    goParseInt0_32 ("a") = none ∧
    (∃ v : Int, GetConfigInt (SetConfigInt d key v) key dv ≠ (v, none)) := by
  refine ⟨by rfl, by rfl, ⟨10, ?_⟩⟩
  have hl : alookup (SetConfigInt d key 10).teamConfigs key = some ("a") := by
    show alookup (ainsert d.teamConfigs key (goFormatBase32 10)) key = some ("a")
    rw [alookup_ainsert_self]
    rfl
  have hpa : goParseInt0_32 ("a") = none := rfl
  have hget : GetConfigInt (SetConfigInt d key 10) key dv =
      (dv, some DBErr.intParseError) := by
    simp [GetConfigInt, GetConfig, hl, hpa]
  rw [hget]
  simp

end Chihuahua
